import Mathlib

/-!
# Verification of the `qd` extended-precision arithmetic library

This file gives a shallow embedding of the double-double (`Double`, here `DD`)
and quad-double (`Quad`) arithmetic of the `qd` repository, and proves or
refutes the frozen claims about it.

Modelling conventions:

* A native IEEE-754 binary64 value is modelled by the type `F`: NaN, signed
  infinity and signed zero are explicit constructors, and every finite nonzero
  value is an exact rational.  Arithmetic on finite values is exact (no
  rounding).  Under this idealization every error-free transformation
  (`two_sum`, `two_prod`, ...) computes a zero error term, so a double-double
  value produced by arithmetic carries its exact value in the high limb.  All
  special-value (NaN / Infinity / signed-zero) dispatch — which is what the
  settled claims are about — is modelled exactly as the source computes it.

* Functions of the repository whose source files are available are transcribed
  from them statement by statement.  Functions of the repository that the
  available sources only call (the error-free transforms, renormalization,
  `Double` addition and division, `Quad` multiplication, the predicates and
  constants of `Double`, the parse error type) are modelled from the spec; each
  such definition carries a doc comment starting with `Modelled from the spec:`.

* Native `f64` library calls with irrational results (`sqrt`, `ln`, `exp`,
  `atan2`) are modelled by deterministic computable rational approximations;
  they are only used as Newton seeds in general-path code whose numeric output
  no settled claim depends on.
-/

set_option maxRecDepth 8000

/-- An exact rational as an explicit fraction: an integer numerator over a
positive natural denominator.  Representations are not normalized (no gcd is
taken — the operations below keep power-of-two denominators aligned, which is
what all the computations of this development produce), so `Q` is compared
with the semantic tests below, and kernel evaluation stays within
hardware-accelerated integer arithmetic. -/
structure Q where
  n : Int
  d : Nat
deriving DecidableEq

def Q.ofInt (n : Int) : Q := ⟨n, 1⟩

/-- Semantic zero test (the denominator is positive by construction). -/
def Q.isZero (a : Q) : Bool := a.n == 0

/-- Semantic equality by cross-multiplication. -/
def Q.eqv (a b : Q) : Bool := a.n * (b.d : Int) == b.n * (a.d : Int)

def Q.ltb (a b : Q) : Bool := a.n * (b.d : Int) < b.n * (a.d : Int)

def Q.leb (a b : Q) : Bool := a.n * (b.d : Int) ≤ b.n * (a.d : Int)

def Q.neg (a : Q) : Q := ⟨-a.n, a.d⟩

def Q.abs (a : Q) : Q := ⟨|a.n|, a.d⟩

/-- Exact addition.  When one denominator divides the other (always the case
for the power-of-two denominators arising here) the result is kept on the
larger denominator; otherwise the general cross-multiplied form is used. -/
def Q.add (a b : Q) : Q :=
  if a.d ≤ b.d then
    if b.d % a.d = 0 then ⟨a.n * ((b.d / a.d : Nat) : Int) + b.n, b.d⟩
    else ⟨a.n * (b.d : Int) + b.n * (a.d : Int), a.d * b.d⟩
  else
    if a.d % b.d = 0 then ⟨a.n + b.n * ((a.d / b.d : Nat) : Int), a.d⟩
    else ⟨a.n * (b.d : Int) + b.n * (a.d : Int), a.d * b.d⟩

def Q.sub (a b : Q) : Q := a.add b.neg

def Q.mul (a b : Q) : Q := ⟨a.n * b.n, a.d * b.d⟩

/-- Exact division (the divisor must be nonzero, which the callers below
guarantee); the denominator stays positive. -/
def Q.div (a b : Q) : Q :=
  if 0 ≤ b.n then ⟨a.n * (b.d : Int), a.d * b.n.natAbs⟩
  else ⟨-(a.n * (b.d : Int)), a.d * b.n.natAbs⟩

/-- Floor of the exact value. -/
def Q.floorI (a : Q) : Int := Int.fdiv a.n (a.d : Int)

/-- Truncation toward zero, as in an `as i32` cast. -/
def Q.truncI (a : Q) : Int := Int.tdiv a.n (a.d : Int)

/-- `2^k` for an integer `k`, as an exact `Q`. -/
def Q.pow2 (k : Int) : Q :=
  if 0 ≤ k then ⟨(2 : Int) ^ k.toNat, 1⟩ else ⟨1, 2 ^ (-k).toNat⟩

/-- Model of an IEEE-754 binary64 value.  `nan`, `inf` and `zero` carry the
sign bit; a finite nonzero value is an exact rational. -/
inductive F where
  | nan (neg : Bool)
  | inf (neg : Bool)
  | zero (neg : Bool)
  | fin (v : Q)
deriving DecidableEq

/-- Smart constructor: a finite rational result, with IEEE round-to-nearest's
convention that an exact zero result of an addition is `+0`. -/
def F.ofRat (v : Q) : F :=
  if v.isZero then F.zero false else F.fin v

/-- A native integer or digit as a float. -/
def F.ofInt (n : Int) : F :=
  F.ofRat (Q.ofInt n)

def F.isNan : F → Bool
  | F.nan _ => true
  | _ => false

def F.isInf : F → Bool
  | F.inf _ => true
  | _ => false

/-- `x == 0.0` in IEEE semantics (both zeros compare equal, NaN does not). -/
def F.isZeroB : F → Bool
  | F.zero _ => true
  | F.fin v => v.isZero
  | _ => false

/-- The raw sign bit, as read by `f64::is_sign_negative` (meaningful for NaN
and for signed zero as well). -/
def F.signBit : F → Bool
  | F.nan s => s
  | F.inf s => s
  | F.zero s => s
  | F.fin v => v.n < 0

def F.isSignNegative (x : F) : Bool := x.signBit

def F.isSignPositive (x : F) : Bool := !x.signBit

/-- The exact value of a non-NaN, non-infinite float. -/
def F.val : F → Q
  | F.fin v => v
  | _ => ⟨0, 1⟩

def F.neg : F → F
  | F.nan s => F.nan (!s)
  | F.inf s => F.inf (!s)
  | F.zero s => F.zero (!s)
  | F.fin v => F.fin v.neg

/-- IEEE addition in the exact-rational idealization: NaN dominates, opposite
infinities give NaN, `-0 + -0 = -0` but any other zero sum is `+0`, and finite
sums are exact. -/
def F.add : F → F → F
  | F.nan s, _ => F.nan s
  | _, F.nan s => F.nan s
  | F.inf s, F.inf t => if s = t then F.inf s else F.nan false
  | F.inf s, _ => F.inf s
  | _, F.inf t => F.inf t
  | F.zero s, F.zero t => F.zero (s && t)
  | F.zero _, F.fin w => F.fin w
  | F.fin v, F.zero _ => F.fin v
  | F.fin v, F.fin w => F.ofRat (v.add w)

def F.sub (a b : F) : F := F.add a (F.neg b)

/-- IEEE multiplication in the exact-rational idealization: NaN dominates,
`0 · ∞` is NaN, otherwise the sign is the XOR of the operand signs and finite
products are exact. -/
def F.mul : F → F → F
  | F.nan s, _ => F.nan s
  | _, F.nan s => F.nan s
  | F.inf s, F.inf t => F.inf (xor s t)
  | F.inf _, F.zero _ => F.nan false
  | F.zero _, F.inf _ => F.nan false
  | F.inf s, F.fin w => if w.isZero then F.nan false else F.inf (xor s (w.n < 0))
  | F.fin v, F.inf t => if v.isZero then F.nan false else F.inf (xor (v.n < 0) t)
  | F.zero s, F.zero t => F.zero (xor s t)
  | F.zero s, F.fin w => F.zero (xor s (w.n < 0))
  | F.fin v, F.zero t => F.zero (xor (v.n < 0) t)
  | F.fin v, F.fin w =>
    if (v.mul w).isZero then F.zero (xor (v.n < 0) (w.n < 0)) else F.fin (v.mul w)

/-- IEEE division in the exact-rational idealization: NaN dominates, `0/0` and
`∞/∞` are NaN, division by zero gives a signed infinity, and finite quotients
are exact. -/
def F.div : F → F → F
  | F.nan s, _ => F.nan s
  | _, F.nan s => F.nan s
  | F.inf _, F.inf _ => F.nan false
  | F.inf s, F.zero t => F.inf (xor s t)
  | F.inf s, F.fin w => if w.isZero then F.inf s else F.inf (xor s (w.n < 0))
  | F.zero _, F.zero _ => F.nan false
  | F.fin v, F.zero t => if v.isZero then F.nan false else F.inf (xor (v.n < 0) t)
  | F.zero s, F.inf t => F.zero (xor s t)
  | F.zero s, F.fin w => if w.isZero then F.nan false else F.zero (xor s (w.n < 0))
  | F.fin v, F.inf t => F.zero (xor (v.n < 0) t)
  | F.fin v, F.fin w =>
    if w.isZero then (if v.isZero then F.nan false else F.inf (v.n < 0))
    else if v.isZero then F.zero (w.n < 0)
    else F.fin (v.div w)

/-- `f64::abs`: clears the sign bit, NaN included. -/
def F.abs : F → F
  | F.nan _ => F.nan false
  | F.inf _ => F.inf false
  | F.zero _ => F.zero false
  | F.fin v => F.fin v.abs

/-- `f64::floor`: exact on the rational value; preserves NaN, infinities and
signed zero. -/
def F.floor : F → F
  | F.nan s => F.nan s
  | F.inf s => F.inf s
  | F.zero s => F.zero s
  | F.fin v => F.ofRat (Q.ofInt v.floorI)

/-- Ordering of two non-NaN floats; `none` when either operand is NaN.  Both
zeros compare equal to each other and to a finite zero value. -/
def F.cmpVal : F → F → Option Ordering
  | F.nan _, _ => none
  | _, F.nan _ => none
  | F.inf s, F.inf t =>
    some (if s = t then Ordering.eq else if s then Ordering.lt else Ordering.gt)
  | F.inf s, _ => some (if s then Ordering.lt else Ordering.gt)
  | _, F.inf t => some (if t then Ordering.gt else Ordering.lt)
  | x, y =>
    some (if Q.ltb x.val y.val then Ordering.lt
          else if Q.eqv x.val y.val then Ordering.eq else Ordering.gt)

/-- IEEE `<`: false whenever either operand is NaN. -/
def F.lt (a b : F) : Bool := F.cmpVal a b == some Ordering.lt

/-- IEEE `<=`: false whenever either operand is NaN. -/
def F.le (a b : F) : Bool :=
  F.cmpVal a b == some Ordering.lt || F.cmpVal a b == some Ordering.eq

/-- IEEE `==`: false whenever either operand is NaN; `-0 == +0`. -/
def F.beq (a b : F) : Bool := F.cmpVal a b == some Ordering.eq

/-- `2f64.powi(n)`: powers of two are exactly representable across the binary64
range; outside it the power overflows to infinity or underflows to zero. -/
def F.pow2 (n : Int) : F :=
  if 1023 < n then F.inf false
  else if n < -1074 then F.zero false
  else F.fin (Q.pow2 n)

/-- `f64 as i32`: truncation toward zero, saturating; NaN casts to 0. -/
def F.toI32 : F → Int
  | F.nan _ => 0
  | F.inf s => if s then -2147483648 else 2147483647
  | F.zero _ => 0
  | F.fin v =>
    let t : Int := v.truncI
    if t < -2147483648 then -2147483648 else if 2147483647 < t then 2147483647 else t

/-- Fueled Newton iteration for the integer square root (structural recursion,
so that the kernel can evaluate it). -/
def natSqrtFuel : Nat → Nat → Nat → Nat
  | 0, _, x => x
  | fuel + 1, n, x =>
    let x1 := (x + n / x) / 2
    if x1 < x then natSqrtFuel fuel n x1 else x

/-- Integer square root via fueled Newton iteration from `n`. -/
def natSqrt (n : Nat) : Nat :=
  if n ≤ 1 then n else natSqrtFuel 1200 n n

/-- Fueled binary logarithm (structural recursion). -/
def natLog2Fuel : Nat → Nat → Nat
  | 0, _ => 0
  | fuel + 1, n => if n ≤ 1 then 0 else 1 + natLog2Fuel fuel (n / 2)

def natLog2 (n : Nat) : Nat := natLog2Fuel 4400 n

/-- Deterministic rational approximation of the native `f64::sqrt` of a
nonnegative rational (about 60 bits).  No settled claim depends on its value;
it only feeds Newton seeds. -/
def ratSqrtApprox (q : Q) : Q :=
  ⟨(natSqrt (q.n.toNat * q.d * 4 ^ 60) : Int), q.d * 2 ^ 60⟩

/-- Model of native `f64::sqrt`: NaN for negative inputs, exact on zeros and
`+∞`, a deterministic rational approximation on positive finite values. -/
def F.fsqrt : F → F
  | F.nan _ => F.nan false
  | F.inf s => if s then F.nan false else F.inf false
  | F.zero s => F.zero s
  | F.fin v => if v.n < 0 then F.nan false else F.fin (ratSqrtApprox v)

/-- Crude deterministic stand-in for native `f64::ln`, used only as a Newton
seed in general-path code whose output no settled claim depends on. -/
def ratLnApprox (q : Q) : Q :=
  ⟨((natLog2 q.n.natAbs : Int) - (natLog2 q.d : Int)) * 6931, 10000⟩

/-- Model of native `f64::ln`: NaN for negative inputs, `-∞` at zero, `+∞` at
`+∞`, a deterministic approximation on positive finite values. -/
def F.fln : F → F
  | F.nan _ => F.nan false
  | F.inf s => if s then F.nan false else F.inf false
  | F.zero _ => F.inf true
  | F.fin v => if v.n < 0 then F.nan false else F.ofRat (ratLnApprox v)

/-- Crude deterministic stand-in for native `f64::exp` (always positive), used
only as a Newton seed. -/
def ratExpApprox (q : Q) : Q :=
  let t := (Q.ofInt 1).add (q.add ((q.mul q).mul ⟨1, 2⟩))
  if t.leb ⟨0, 1⟩ then ⟨1, 1000000⟩ else t

/-- Model of native `f64::exp`. -/
def F.fexp : F → F
  | F.nan _ => F.nan false
  | F.inf s => if s then F.zero false else F.inf false
  | F.zero _ => F.fin ⟨1, 1⟩
  | F.fin v => F.fin (ratExpApprox v)

/-- Crude deterministic stand-in for native `f64::atan2`, used only as a
Newton seed in the general branch of `Quad::atan2`. -/
def F.fatan2 (y x : F) : F :=
  match y, x with
  | F.nan _, _ => F.nan false
  | _, F.nan _ => F.nan false
  | y, x => F.ofRat (Q.div (F.val y) (((F.val x).abs).add (Q.ofInt 1)))

/-- Modelled from the spec: `two_sum` (§4.1), Knuth's branch-free error-free
addition.  The error term is computed by the hardware formula, which vanishes
in the exact-rational idealization for finite operands and propagates special
values as the hardware does. -/
def two_sum (a b : F) : F × F :=
  let s := F.add a b
  let bb := F.sub s a
  let e := F.add (F.sub a (F.sub s bb)) (F.sub b bb)
  (s, e)

/-- Modelled from the spec: `quick_two_sum` (§4.1), the cheaper error-free
addition requiring `|a| ≥ |b|`. -/
def quick_two_sum (a b : F) : F × F :=
  let s := F.add a b
  let e := F.sub b (F.sub s a)
  (s, e)

/-- Modelled from the spec: `two_prod` (§4.1), the error-free product, with the
error computed by fused multiply-add; the error vanishes in the exact
idealization for finite operands. -/
def two_prod (a b : F) : F × F :=
  let p := F.mul a b
  let e := F.add (F.mul a b) (F.neg p)
  (p, e)

/-- Modelled from the spec: `two_sqr`/`two_square` (§4.1), the error-free
square. -/
def two_square (a : F) : F × F := two_prod a a

/-- Modelled from the spec: `renorm2` (§4.2), renormalization of two limbs by
one error-free addition. -/
def renorm2 (a b : F) : F × F := quick_two_sum a b

/-- The `Double` type: an ordered pair of floats.  `hi` is the tuple field `.0`
of the source, `lo` is `.1`. -/
structure DD where
  hi : F
  lo : F
deriving DecidableEq

/-- `Double::from(f)` for a native float: the high limb carries the value. -/
def DD.ofF (a : F) : DD := ⟨a, F.zero false⟩

def DD.ZERO : DD := ⟨F.zero false, F.zero false⟩
def DD.NEG_ZERO : DD := ⟨F.zero true, F.zero false⟩
def DD.ONE : DD := ⟨F.fin ⟨1, 1⟩, F.zero false⟩
def DD.NAN : DD := ⟨F.nan false, F.nan false⟩
def DD.INFINITY : DD := ⟨F.inf false, F.zero false⟩
def DD.NEG_INFINITY : DD := ⟨F.inf true, F.zero false⟩

/-- `Double::EPSILON = 2⁻¹⁰⁴`. -/
def DD.EPSILON : DD := ⟨F.fin ⟨1, 20282409603651670423947251286016⟩, F.zero false⟩

/-- `Double::LN_2`: the two binary64 limbs of ln 2, as exact dyadic
rationals. -/
def DD.LN_2 : DD :=
  ⟨F.fin ⟨6243314768165359, 9007199254740992⟩,
   F.fin ⟨7525737178955839, 324518553658426726783156020576256⟩⟩

/-- `Double::E`: the two binary64 limbs of Euler's number, as exact dyadic
rationals. -/
def DD.E : DD :=
  ⟨F.fin ⟨6121026514868073, 2251799813685248⟩,
   F.fin ⟨2932120240029853, 20282409603651670423947251286016⟩⟩

/-- Modelled from the spec: `Double::is_nan` (§3: NaN is any encoding where
either limb is NaN). -/
def DD.is_nan (x : DD) : Bool := x.hi.isNan || x.lo.isNan

/-- Modelled from the spec: `Double::is_infinite` (§3: infinity is carried by
the limbs; true when either limb is infinite). -/
def DD.is_infinite (x : DD) : Bool := x.hi.isInf || x.lo.isInf

/-- Modelled from the spec: `Double::is_zero` (§3: ±0 is carried by the high
limb). -/
def DD.is_zero (x : DD) : Bool := x.hi.isZeroB

/-- Modelled from the spec: sign queries read the high limb's sign bit. -/
def DD.is_sign_negative (x : DD) : Bool := x.hi.isSignNegative

def DD.is_sign_positive (x : DD) : Bool := x.hi.isSignPositive

/-- Modelled from the spec: `Double` equality (`PartialEq`) is limbwise IEEE
equality. -/
def DD.beq (x y : DD) : Bool := F.beq x.hi y.hi && F.beq x.lo y.lo

/-- `Neg for Double`: limbwise negation. -/
def DD.neg (x : DD) : DD := ⟨x.hi.neg, x.lo.neg⟩

/-- Modelled from the spec: `Double::abs` — identity for non-negative sign,
negation otherwise. -/
def DD.abs (x : DD) : DD := if x.is_sign_negative then x.neg else x

/-- Modelled from the spec: `Double` addition (§4.3 special-value policy — NaN
dominates, then infinities with opposite infinities giving NaN — and §4.1/§4.2
general case: `two_sum` of the high limbs with the low limbs folded into the
error, renormalized to two limbs). -/
def DD.add (x y : DD) : DD :=
  if x.is_nan || y.is_nan then DD.NAN
  else if x.is_infinite then
    if y.is_infinite then
      if x.is_sign_positive = y.is_sign_positive then
        (if x.is_sign_positive then DD.INFINITY else DD.NEG_INFINITY)
      else DD.NAN
    else (if x.is_sign_positive then DD.INFINITY else DD.NEG_INFINITY)
  else if y.is_infinite then
    (if y.is_sign_positive then DD.INFINITY else DD.NEG_INFINITY)
  else
    let se := two_sum x.hi y.hi
    let ab := renorm2 se.1 (F.add se.2 (F.add x.lo y.lo))
    ⟨ab.1, ab.2⟩

def DD.sub (x y : DD) : DD := DD.add x y.neg

/-- `Mul for Double` (src/double/arith/mul.rs): NaN dominates; a zero operand
against an infinite one gives NaN, against anything else a signed zero; an
infinite operand gives NaN against zero and a signed infinity otherwise; the
general case is `two_prod` of the high limbs with the cross terms folded in,
renormalized to two limbs. -/
def DD.mul (x y : DD) : DD :=
  if x.is_nan || y.is_nan then DD.NAN
  else if x.is_zero then
    if y.is_infinite then DD.NAN
    else if x.is_sign_positive = y.is_sign_positive then DD.ZERO
    else DD.NEG_ZERO
  else if x.is_infinite then
    if y.is_zero then DD.NAN
    else if x.is_sign_positive = y.is_sign_positive then DD.INFINITY
    else DD.NEG_INFINITY
  else if y.is_infinite then
    if x.is_sign_positive = y.is_sign_positive then DD.INFINITY
    else DD.NEG_INFINITY
  else
    let pe := two_prod x.hi y.hi
    let ab := renorm2 pe.1 (F.add (F.add pe.2 (F.mul x.hi y.lo)) (F.mul x.lo y.hi))
    ⟨ab.1, ab.2⟩

/-- The exact value of a finite `Double` (sum of its limbs). -/
def DD.val (x : DD) : Q := Q.add x.hi.val x.lo.val

/-- A finite value as a canonical `Double`, used by the idealized general case
of division. -/
def DD.ofRat (v : Q) : DD := ⟨F.ofRat v, F.zero false⟩

/-- Modelled from the spec: `Double` division (§4.3 policy — `0/0 → NaN`,
`finite/0 → signed Inf`, `Inf/Inf → NaN`, signs XOR — with the general
quotient-and-refine computation idealized to the exact quotient of the limb
sums). -/
def DD.div (x y : DD) : DD :=
  if x.is_nan || y.is_nan then DD.NAN
  else if x.is_zero then
    if y.is_zero then DD.NAN
    else if x.is_sign_positive = y.is_sign_positive then DD.ZERO
    else DD.NEG_ZERO
  else if y.is_zero then
    if x.is_sign_positive = y.is_sign_positive then DD.INFINITY
    else DD.NEG_INFINITY
  else if x.is_infinite then
    if y.is_infinite then DD.NAN
    else if x.is_sign_positive = y.is_sign_positive then DD.INFINITY
    else DD.NEG_INFINITY
  else if y.is_infinite then
    if x.is_sign_positive = y.is_sign_positive then DD.ZERO
    else DD.NEG_ZERO
  else DD.ofRat (Q.div x.val y.val)

/-- Modelled from the spec: `Double::recip`. -/
def DD.recip (x : DD) : DD := DD.div DD.ONE x

/-- Modelled from the spec: construct-from-quotient (§6): the double-double
quotient of two native floats; in the exact idealization the correction term
vanishes. -/
def DD.from_div (a b : F) : DD := ⟨F.div a b, F.zero false⟩

/-- `Double::square`/`sqr` (src/double/algebraic.rs): `two_square` of the high
limb with the cross terms folded in via `quick_two_sum`. -/
def DD.sqr (x : DD) : DD :=
  let pe := two_square x.hi
  let r := quick_two_sum pe.1
    (F.add (F.add pe.2 (F.mul (F.mul (F.fin ⟨2, 1⟩) x.hi) x.lo)) (F.mul x.lo x.lo))
  ⟨r.1, r.2⟩

/-- `Double::mul_pwr2`: componentwise scaling by a native float (used with
exact powers of two). -/
def DD.mul_pwr2 (x : DD) (n : F) : DD := ⟨F.mul x.hi n, F.mul x.lo n⟩

/-- `Double::ldexp` (src/double/algebraic.rs): componentwise scaling by
`2f64.powi(n)`. -/
def DD.ldexp (x : DD) (n : Int) : DD :=
  ⟨F.mul x.hi (F.pow2 n), F.mul x.lo (F.pow2 n)⟩

/-- `INV_FACTS` (src/double/tables.rs): reciprocals of factorials from `1/3!`
on, each as the exact dyadic rationals of its two binary64 limbs. -/
def INV_FACTS : List DD := [
  ⟨F.fin ⟨6004799503160661, 36028797018963968⟩, F.fin ⟨6004799503160661, 649037107316853453566312041152512⟩⟩,
  ⟨F.fin ⟨6004799503160661, 144115188075855872⟩, F.fin ⟨6004799503160661, 2596148429267413814265248164610048⟩⟩,
  ⟨F.fin ⟨4803839602528529, 576460752303423488⟩, F.fin ⟨4803839602528529, 41538374868278621028243970633760768⟩⟩,
  ⟨F.fin ⟨6405119470038039, 4611686018427387904⟩, F.fin ⟨-8807039271302303, 166153499473114484112975882535043072⟩⟩,
  ⟨F.fin ⟨3660068268593165, 18446744073709551616⟩, F.fin ⟨3660068268593165, 21267647932558653966460912964485513216⟩⟩,
  ⟨F.fin ⟨3660068268593165, 147573952589676412928⟩, F.fin ⟨3660068268593165, 170141183460469231731687303715884105728⟩⟩,
  ⟨F.fin ⟨1626697008263629, 590295810358705651712⟩, F.fin ⟨-7719463647003, 41538374868278621028243970633760768⟩⟩,
  ⟨F.fin ⟨1301357606610903, 4722366482869645213696⟩, F.fin ⟨4043867093980365, 170141183460469231731687303715884105728⟩⟩,
  ⟨F.fin ⟨1892883791434041, 75557863725914323419136⟩, F.fin ⟨-7888094100582921, 5444517870735015415413993718908291383296⟩⟩,
  ⟨F.fin ⟨630961263811347, 302231454903657293676544⟩, F.fin ⟨-2629364700194307, 21778071482940061661655974875633165533184⟩⟩,
  ⟨F.fin ⟨6212541674450185, 38685626227668133590597632⟩, F.fin ⟨4385335123003231, 348449143727040986586495598010130648530944⟩⟩,
  ⟨F.fin ⟨7100047627943069, 618970019642690137449562112⟩, F.fin ⟨4606333268458783, 22300745198530623141535718272648361505980416⟩⟩,
  ⟨F.fin ⟨7573384136472607, 9903520314283042199192993792⟩, F.fin ⟨5023004703516875, 713623846352979940529142984724747568191373312⟩⟩,
  ⟨F.fin ⟨7573384136472607, 158456325028528675187087900672⟩, F.fin ⟨5023004703516875, 11417981541647679048466287755595961091061972992⟩⟩,
  ⟨F.fin ⟨3563945475987109, 1267650600228229401496703205376⟩, F.fin ⟨1884976615749403, 11417981541647679048466287755595961091061972992⟩⟩]

/-- The constant `TWO` of src/double/trans.rs. -/
def DD.TWO : DD := ⟨F.fin ⟨2, 1⟩, F.zero false⟩

/-- The constant `INV_K = 1/512` of src/double/trans.rs. -/
def INV_K : DD := ⟨F.fin ⟨1, 512⟩, F.zero false⟩

/-- `Double::pre_exp` (src/double/trans.rs): the fast-path dispatcher of
`exp`.  Note the threshold tests are strict and read the high limb: `self.0 <
-600.0`, `self.0 > 708.0`. -/
def DD.pre_exp (s : DD) : Option DD :=
  if F.lt s.hi (F.fin ⟨-600, 1⟩) then some DD.ZERO
  else if F.lt (F.fin ⟨708, 1⟩) s.hi then some DD.INFINITY
  else if s.is_nan then some DD.NAN
  else if s.is_zero then some DD.ONE
  else if DD.beq s DD.ONE then some DD.E
  else none

/-- Modelled from the spec: `Double` `<=` via the limbwise lexicographic
partial order on (hi, lo); false when any compared limb is NaN. -/
def DD.le (x y : DD) : Bool :=
  F.lt x.hi y.hi || (F.beq x.hi y.hi && (F.lt x.lo y.lo || F.beq x.lo y.lo))

/-- The Taylor-series loop of `Double::exp` (src/double/trans.rs lines 90–102):
entered with `i = 0` and the current term `t`; each pass folds `t` into `r`,
advances the power `p` and the term index, and exits once `i ≥ 5` or the new
term is at most `eps`, after which the final `r += t` is applied.  The loop
breaks unconditionally once `i ≥ 5`, so with `fuel = 5 - i` (5 at entry) the
zero-fuel branch is unreachable; the fuel only makes the recursion structural
so that the kernel can evaluate it. -/
def expLoop (eps x : DD) : Nat → Nat → DD → DD → DD → DD
  | fuel, i, p, r, t =>
    let r1 := DD.add r t
    let p1 := DD.mul p x
    let i1 := i + 1
    let t1 := DD.mul p1 (List.getD INV_FACTS i1 DD.ZERO)
    if 5 ≤ i1 || DD.le (DD.abs t1) eps then DD.add r1 t1
    else
      match fuel with
      | 0 => DD.add r1 t1
      | fuel1 + 1 => expLoop eps x fuel1 i1 p1 r1 t1

/-- `Double::exp` (src/double/trans.rs): fast paths via `pre_exp`, otherwise
`exp(kx + m ln 2) = 2^m exp(x)^k` range reduction with `k = 512`, a truncated
Taylor series, nine squaring-expansion steps `r ↦ 2r + r²`, the `1 +` term,
and the final `2^m` scaling via `ldexp`. -/
def DD.exp (s : DD) : DD :=
  match s.pre_exp with
  | some r => r
  | none =>
    let eps := DD.mul INV_K DD.EPSILON
    let m := F.floor (F.add (F.div s.hi DD.LN_2.hi) (F.fin ⟨1, 2⟩))
    let x := DD.mul (DD.sub s (DD.mul DD.LN_2 ⟨m, F.zero false⟩)) INV_K
    let p := DD.sqr x
    let r := DD.add x (DD.mul_pwr2 p (F.fin ⟨1, 2⟩))
    let p := DD.mul p x
    let t := DD.mul p (List.getD INV_FACTS 0 DD.ZERO)
    let r := expLoop eps x 5 0 p r t
    let r := DD.add (DD.mul r DD.TWO) (DD.sqr r)
    let r := DD.add (DD.mul r DD.TWO) (DD.sqr r)
    let r := DD.add (DD.mul r DD.TWO) (DD.sqr r)
    let r := DD.add (DD.mul r DD.TWO) (DD.sqr r)
    let r := DD.add (DD.mul r DD.TWO) (DD.sqr r)
    let r := DD.add (DD.mul r DD.TWO) (DD.sqr r)
    let r := DD.add (DD.mul r DD.TWO) (DD.sqr r)
    let r := DD.add (DD.mul r DD.TWO) (DD.sqr r)
    let r := DD.add (DD.mul r DD.TWO) (DD.sqr r)
    let r := DD.add r DD.ONE
    DD.ldexp r (F.toI32 m)

/-- `Double::sqrt` (src/double/alg/sqrt.rs): zero → `ZERO`; sign-negative →
`NAN`; otherwise one Karp–Markstein refinement of the native reciprocal
square-root seed. -/
def DD.sqrt (a : DD) : DD :=
  if a.is_zero then DD.ZERO
  else if a.is_sign_negative then DD.NAN
  else
    let x := DD.from_div (F.fin ⟨1, 1⟩) (F.fsqrt a.hi)
    let ax := DD.mul a x
    DD.add ax (DD.mul (DD.sub a (DD.sqr ax)) (DD.mul_pwr2 x (F.fin ⟨1, 2⟩)))

/-- The square-and-multiply loop of `Double::powi` (src/double/algebraic.rs
lines 55–63): `while i > 0 { if i % 2 == 1 { s *= r }; i /= 2; if i > 0 { r =
r.square() } }`.  The fuel (`i` at entry, which bounds the number of halvings)
only makes the recursion structural so that the kernel can evaluate it. -/
def powiLoop : Nat → DD → DD → Nat → DD
  | 0, _, s, _ => s
  | fuel + 1, r, s, i =>
    if 0 < i then
      let s1 := if i % 2 = 1 then DD.mul s r else s
      let i1 := i / 2
      let r1 := if 0 < i1 then DD.sqr r else r
      powiLoop fuel r1 s1 i1
    else s

/-- `Double::powi` (src/double/algebraic.rs): zero exponent returns 1 before
any special-value check; otherwise binary exponentiation on `|n|`, with a
final reciprocal for negative `n`.  The `i32` exponent is modelled by `Int`. -/
def DD.powi (x : DD) (n : Int) : DD :=
  if n = 0 then DD.ofF (F.fin ⟨1, 1⟩)
  else
    let r := x
    let s := DD.ofF (F.fin ⟨1, 1⟩)
    let i := n.natAbs
    let s := if 1 < i then powiLoop i r s i else r
    if n < 0 then DD.div (DD.ofF (F.fin ⟨1, 1⟩)) s else s

/-- `Double::nroot` (src/double/algebraic.rs): `n ≤ 0` → NaN; even `n` with a
sign-negative operand → NaN; `n = 1` → identity; `n = 2` → `sqrt`; zero → 0;
otherwise one Newton step on `x⁻ⁿ - a` from the native seed
`exp(-ln a / n)`, negated back for odd roots of negatives, reciprocated. -/
def DD.nroot (a : DD) (n : Int) : DD :=
  if n ≤ 0 then DD.NAN
  else if n % 2 = 0 && a.is_sign_negative then DD.NAN
  else if n = 1 then a
  else if n = 2 then DD.sqrt a
  else if a.is_zero then DD.ZERO
  else
    let r := DD.abs a
    let x0 : DD := DD.ofF (F.fexp (F.div (F.neg (F.fln r.hi)) (F.ofInt n)))
    let x1 := DD.add x0
      (DD.div (DD.mul x0 (DD.sub (DD.ofF (F.fin ⟨1, 1⟩)) (DD.mul r (DD.powi x0 n))))
        (DD.ofF (F.ofInt n)))
    let x2 := if a.is_sign_negative then x1.neg else x1
    x2.recip

/-- The `Quad` type: four floats, `c0` … `c3` standing for the tuple fields
`.0` … `.3` of the source. -/
structure Quad where
  c0 : F
  c1 : F
  c2 : F
  c3 : F
deriving DecidableEq

/-- Positional limb access, as the `Index` implementation used by the merge
addition.  Indices beyond 3 never occur on the guarded paths of the source. -/
def Quad.get (q : Quad) : Nat → F
  | 0 => q.c0
  | 1 => q.c1
  | 2 => q.c2
  | 3 => q.c3
  | _ => F.zero false

/-- Positional limb update for the output array of the merge addition. -/
def Quad.set (q : Quad) (i : Nat) (v : F) : Quad :=
  match i with
  | 0 => ⟨v, q.c1, q.c2, q.c3⟩
  | 1 => ⟨q.c0, v, q.c2, q.c3⟩
  | 2 => ⟨q.c0, q.c1, v, q.c3⟩
  | _ => ⟨q.c0, q.c1, q.c2, v⟩

/-- `Quad::from(f64)`. -/
def Quad.ofF (a : F) : Quad := ⟨a, F.zero false, F.zero false, F.zero false⟩

def Quad.ZERO : Quad := ⟨F.zero false, F.zero false, F.zero false, F.zero false⟩
def Quad.NEG_ZERO : Quad := ⟨F.zero true, F.zero false, F.zero false, F.zero false⟩
def Quad.ONE : Quad := ⟨F.fin ⟨1, 1⟩, F.zero false, F.zero false, F.zero false⟩
def Quad.NAN : Quad := ⟨F.nan false, F.nan false, F.nan false, F.nan false⟩
def Quad.INFINITY : Quad := ⟨F.inf false, F.zero false, F.zero false, F.zero false⟩
def Quad.NEG_INFINITY : Quad := ⟨F.inf true, F.zero false, F.zero false, F.zero false⟩

/-- `Quad::PI`: the four binary64 limbs of π as exact dyadic rationals. -/
def Quad.PI : Quad :=
  ⟨F.fin ⟨884279719003555, 281474976710656⟩,
   F.fin ⟨4967757600021511, 40564819207303340847894502572032⟩,
   F.fin ⟨-2188430490166255, 730750818665451459101842416358141509827966271488⟩,
   F.fin ⟨5857755168774013, 52656145834278593348959013841835216159447547700274555627155488768⟩⟩

/-- `Quad::FRAC_PI_2`: the four limbs of π/2. -/
def Quad.FRAC_PI_2 : Quad :=
  ⟨F.fin ⟨884279719003555, 562949953421312⟩,
   F.fin ⟨4967757600021511, 81129638414606681695789005144064⟩,
   F.fin ⟨-2188430490166255, 1461501637330902918203684832716283019655932542976⟩,
   F.fin ⟨5857755168774013, 105312291668557186697918027683670432318895095400549111254310977536⟩⟩

/-- `Quad::FRAC_PI_4`: the four limbs of π/4. -/
def Quad.FRAC_PI_4 : Quad :=
  ⟨F.fin ⟨884279719003555, 1125899906842624⟩,
   F.fin ⟨4967757600021511, 162259276829213363391578010288128⟩,
   F.fin ⟨-2188430490166255, 2923003274661805836407369665432566039311865085952⟩,
   F.fin ⟨5857755168774013, 210624583337114373395836055367340864637790190801098222508621955072⟩⟩

/-- `Quad::FRAC_3_PI_4`: the four limbs of 3π/4. -/
def Quad.FRAC_3_PI_4 : Quad :=
  ⟨F.fin ⟨2652839157010665, 1125899906842624⟩,
   F.fin ⟨3725818200016133, 40564819207303340847894502572032⟩,
   F.fin ⟨2862276759745805, 730750818665451459101842416358141509827966271488⟩,
   F.fin ⟨-6810541066450737, 26328072917139296674479506920917608079723773850137277813577744384⟩⟩

/-- `Quad::is_zero` (src/quad/misc.rs): `self.0 == 0.0`. -/
def Quad.is_zero (q : Quad) : Bool := q.c0.isZeroB

/-- `Quad::is_sign_negative` (src/quad/misc.rs): the sign bit of limb 0. -/
def Quad.is_sign_negative (q : Quad) : Bool := q.c0.isSignNegative

/-- `Quad::is_sign_positive` (src/quad/misc.rs). -/
def Quad.is_sign_positive (q : Quad) : Bool := q.c0.isSignPositive

/-- `Quad::is_nan` (src/quad/misc.rs): `self.0.is_nan() || self.1.is_nan()` —
note only the first two limbs are consulted. -/
def Quad.is_nan (q : Quad) : Bool := q.c0.isNan || q.c1.isNan

/-- `Quad::is_infinite` (src/quad/misc.rs): true when any of the four limbs is
infinite. -/
def Quad.is_infinite (q : Quad) : Bool :=
  q.c0.isInf || q.c1.isInf || q.c2.isInf || q.c3.isInf

/-- `Quad::is_finite` (src/quad/misc.rs): all four limbs finite. -/
def Quad.is_finite (q : Quad) : Bool :=
  !q.c0.isNan && !q.c0.isInf && !q.c1.isNan && !q.c1.isInf &&
  !q.c2.isNan && !q.c2.isInf && !q.c3.isNan && !q.c3.isInf

/-- Modelled from the spec: `Quad` equality (`PartialEq`) is limbwise IEEE
equality. -/
def Quad.beq (x y : Quad) : Bool :=
  F.beq x.c0 y.c0 && F.beq x.c1 y.c1 && F.beq x.c2 y.c2 && F.beq x.c3 y.c3

/-- `Neg for Quad`: limbwise negation. -/
def Quad.neg (q : Quad) : Quad := ⟨q.c0.neg, q.c1.neg, q.c2.neg, q.c3.neg⟩

/-- `Quad::abs` (src/quad/misc.rs): negate when sign-negative. -/
def Quad.abs (q : Quad) : Quad := if q.is_sign_negative then q.neg else q

/-- The exact value of a finite `Quad` (sum of its limbs). -/
def Quad.val (q : Quad) : Q :=
  Q.add (Q.add (Q.add q.c0.val q.c1.val) q.c2.val) q.c3.val

/-- A finite value as a canonical `Quad`, used by the idealized general cases
of the spec-modelled operations. -/
def Quad.ofRat (v : Q) : Quad := ⟨F.ofRat v, F.zero false, F.zero false, F.zero false⟩

/-- Modelled from the spec: `accumulate` (§4.4): folds the next merged limb
`t` into the rolling two-limb accumulator `(u, v)` by a `two_sum` cascade,
emitting the finished (stable) limb `s`. -/
def accumulate (u v t : F) : F × F × F :=
  let sv := two_sum v t
  let su := two_sum u sv.1
  (su.1, su.2, sv.2)

/-- Modelled from the spec: `renorm4` (§4.2): a `quick_two_sum` cascade
propagating the carry from the tail to the leading limb, then a second pass
redistributing the errors downward into four nonoverlapping limbs. -/
def renorm4 (c0 c1 c2 c3 : F) : F × F × F × F :=
  let a := quick_two_sum c2 c3
  let b := quick_two_sum c1 a.1
  let c := quick_two_sum c0 b.1
  let d := quick_two_sum c.2 b.2
  let e := quick_two_sum d.2 a.2
  (c.1, d.1, e.1, e.2)

/-- Modelled from the spec: `renorm5` (§4.2): like `renorm4` on a five-limb
intermediate, with the excess precision folded into the last kept limb. -/
def renorm5 (c0 c1 c2 c3 c4 : F) : F × F × F × F :=
  let a := quick_two_sum c3 c4
  let b := quick_two_sum c2 a.1
  let c := quick_two_sum c1 b.1
  let d := quick_two_sum c0 c.1
  let e := quick_two_sum d.2 c.2
  let f := quick_two_sum e.2 b.2
  (d.1, e.1, f.1, F.add f.2 a.2)

/-- `Quad::pre_add` (src/quad/add.rs): the special-value shortcut of
addition — NaN dominates, then infinities, opposite infinite signs giving
NaN. -/
def Quad.pre_add (x y : Quad) : Option Quad :=
  if x.is_nan || y.is_nan then some Quad.NAN
  else if x.is_infinite then
    if y.is_infinite then
      if x.is_sign_positive then
        (if y.is_sign_positive then some Quad.INFINITY else some Quad.NAN)
      else if y.is_sign_negative then some Quad.NEG_INFINITY
      else some Quad.NAN
    else if x.is_sign_positive then some Quad.INFINITY
    else some Quad.NEG_INFINITY
  else if y.is_infinite then
    if y.is_sign_positive then some Quad.INFINITY
    else some Quad.NEG_INFINITY
  else none

/-- The merge loop of `Quad` addition (src/quad/add.rs lines 69–95), returning
the output limbs together with the final read positions `i`, `j`.  Each pass
either exits or consumes one of the at most eight input limbs, so the fuel of
9 it is started with is never exhausted; the fuel only makes the recursion
structural so that the kernel can evaluate it. -/
def addLoop (sx sy : Quad) : Nat → Nat → Nat → Nat → F → F → Quad → Quad × Nat × Nat
  | 0, i, j, _, _, _, xs => (xs, i, j)
  | fuel + 1, i, j, k, u, v, xs =>
    if k < 4 then
      if 4 ≤ i ∧ 4 ≤ j then
        let xs1 := xs.set k u
        ((if k < 3 then xs1.set (k + 1) v else xs1), i, j)
      else
        let tij : F × Nat × Nat :=
          if 4 ≤ i then (sy.get j, i, j + 1)
          else if 4 ≤ j then (sx.get i, i + 1, j)
          else if F.lt (F.abs (sy.get j)) (F.abs (sx.get i)) then (sx.get i, i + 1, j)
          else (sy.get j, i, j + 1)
        let acc := accumulate u v tij.1
        let emit : Quad × Nat :=
          if F.beq acc.1 (F.zero false) then (xs, k) else (xs.set k acc.1, k + 1)
        addLoop sx sy fuel tij.2.1 tij.2.2 emit.2 acc.2.1 acc.2.2 emit.1
    else (xs, i, j)

/-- The leftover-tail folds of `Quad` addition (src/quad/add.rs lines
97–102): `for k in i..4 { x[3] += self[k] }`.  Fueled with 4, the loop
bound. -/
def tailAdd (q : Quad) : Nat → Nat → F → F
  | 0, _, acc => acc
  | fuel + 1, k, acc =>
    if k < 4 then tailAdd q fuel (k + 1) (F.add acc (q.get k)) else acc

/-- `Add for Quad` (src/quad/add.rs): `pre_add` shortcut, otherwise a merge of
the two limb sequences by descending magnitude through the rolling
`accumulate` window, leftover limbs folded into the last output slot, and a
final `renorm4`. -/
def Quad.add (x y : Quad) : Quad :=
  match x.pre_add y with
  | some r => r
  | none =>
    let first : F × Nat × Nat :=
      if F.lt (F.abs (y.get 0)) (F.abs (x.get 0)) then (x.get 0, 1, 0)
      else (y.get 0, 0, 1)
    let second : F × Nat × Nat :=
      if F.lt (F.abs (y.get first.2.2)) (F.abs (x.get first.2.1)) then
        (x.get first.2.1, first.2.1 + 1, first.2.2)
      else (y.get first.2.2, first.2.1, first.2.2 + 1)
    let uv := renorm2 first.1 second.1
    let res := addLoop x y 9 second.2.1 second.2.2 0 uv.1 uv.2
      ⟨F.zero false, F.zero false, F.zero false, F.zero false⟩
    let x3 := tailAdd x 4 res.2.1 ((res.1).get 3)
    let x3 := tailAdd y 4 res.2.2 x3
    let rn := renorm4 ((res.1).get 0) ((res.1).get 1) ((res.1).get 2) x3
    ⟨rn.1, rn.2.1, rn.2.2.1, rn.2.2.2⟩

def Quad.sub (x y : Quad) : Quad := Quad.add x y.neg

/-- Modelled from the spec: `Quad` multiplication (§4.3 special-value policy
applied identically to all binary operators; §4.4 general case of expanded
cross-term sums, which in the exact-limb idealization computes the exact
product of the limb sums, carried in the leading limb). -/
def Quad.mul (x y : Quad) : Quad :=
  if x.is_nan || y.is_nan then Quad.NAN
  else if x.is_zero then
    if y.is_infinite then Quad.NAN
    else if x.is_sign_positive = y.is_sign_positive then Quad.ZERO
    else Quad.NEG_ZERO
  else if x.is_infinite then
    if y.is_zero then Quad.NAN
    else if x.is_sign_positive = y.is_sign_positive then Quad.INFINITY
    else Quad.NEG_INFINITY
  else if y.is_infinite then
    if x.is_sign_positive = y.is_sign_positive then Quad.INFINITY
    else Quad.NEG_INFINITY
  else Quad.ofRat (Q.mul x.val y.val)

/-- Modelled from the spec: `Quad` division (§4.3 policy, exact general
quotient in the idealization). -/
def Quad.div (x y : Quad) : Quad :=
  if x.is_nan || y.is_nan then Quad.NAN
  else if x.is_zero then
    if y.is_zero then Quad.NAN
    else if x.is_sign_positive = y.is_sign_positive then Quad.ZERO
    else Quad.NEG_ZERO
  else if y.is_zero then
    if x.is_sign_positive = y.is_sign_positive then Quad.INFINITY
    else Quad.NEG_INFINITY
  else if x.is_infinite then
    if y.is_infinite then Quad.NAN
    else if x.is_sign_positive = y.is_sign_positive then Quad.INFINITY
    else Quad.NEG_INFINITY
  else if y.is_infinite then
    if x.is_sign_positive = y.is_sign_positive then Quad.ZERO
    else Quad.NEG_ZERO
  else Quad.ofRat (Q.div x.val y.val)

/-- Modelled from the spec: `Quad::recip`. -/
def Quad.recip (x : Quad) : Quad := Quad.div Quad.ONE x

/-- `Quad::sqr` (src/quad/alg.rs): the expanded square
`a0² + 2a0a1 + 2a0a2 + a1² + 2a0a3 + 2a1a2` combined through the fixed
`two_sum`/`quick_two_sum` sequence of the source into a five-limb
intermediate, renormalized by `renorm5`. -/
def Quad.sqr (a : Quad) : Quad :=
  let p0 := two_square a.c0
  let p1 := two_prod (F.mul (F.fin ⟨2, 1⟩) a.c0) a.c1
  let p2 := two_prod (F.mul (F.fin ⟨2, 1⟩) a.c0) a.c2
  let p3 := two_square a.c1
  let h4 := F.mul (F.mul (F.fin ⟨2, 1⟩) a.c0) a.c3
  let h5 := F.mul (F.mul (F.fin ⟨2, 1⟩) a.c1) a.c2
  let r0 := p0.1
  let s1 := two_sum p1.1 p0.2
  let sb := two_sum s1.2 p1.2
  let sc := two_sum p2.1 p3.1
  let sd := two_sum sb.1 sc.1
  let se := two_sum sb.2 sc.2
  let sf := two_sum sd.2 se.1
  let si := quick_two_sum sf.1 (F.add se.2 sf.2)
  let sr2 := quick_two_sum sd.1 si.1
  let sk := quick_two_sum si.2 sr2.2
  let sm := two_sum h4 h5
  let sn := two_sum p2.2 p3.2
  let so := two_sum sm.1 sn.1
  let sr3 := two_sum sk.1 so.1
  let r4 := F.add (F.add (F.add (F.add sm.2 sn.2) so.2) sk.2) sr3.2
  let rn := renorm5 r0 s1.1 sr2.1 sr3.1 r4
  ⟨rn.1, rn.2.1, rn.2.2.1, rn.2.2.2⟩

/-- The square-and-multiply loop of `Quad::powi` (src/quad/alg.rs lines
63–71), fueled like `powiLoop`. -/
def powiLoopQ : Nat → Quad → Quad → Nat → Quad
  | 0, _, s, _ => s
  | fuel + 1, r, s, k =>
    if 0 < k then
      let s1 := if k % 2 = 1 then Quad.mul s r else s
      let k1 := k / 2
      let r1 := if 0 < k1 then Quad.sqr r else r
      powiLoopQ fuel r1 s1 k1
    else s

/-- `Quad::powi` (src/quad/alg.rs): zero exponent returns `ONE` before any
special-value check; otherwise binary exponentiation on `|n|`, reciprocated
for negative `n`. -/
def Quad.powi (x : Quad) (n : Int) : Quad :=
  if n = 0 then Quad.ONE
  else
    let r := x
    let s := Quad.ONE
    let k := n.natAbs
    let s := if 1 < k then powiLoopQ k r s k else r
    if n < 0 then s.recip else s

/-- Modelled from the spec: `Quad::ln` (§4.6 fast paths in the order of the
`Double` `pre_ln` of src/double/trans.rs: NaN → NaN, sign-negative → NaN,
zero → −∞, ∞ → ∞, 1 → 0); the Newton iteration of the general case is
abstracted to its deterministic seed value, on which no settled claim
depends. -/
def Quad.ln (a : Quad) : Quad :=
  if a.is_nan then Quad.NAN
  else if a.is_sign_negative then Quad.NAN
  else if a.is_zero then Quad.NEG_INFINITY
  else if a.is_infinite then Quad.INFINITY
  else if Quad.beq a Quad.ONE then Quad.ZERO
  else Quad.ofRat (ratLnApprox a.val)

/-- Modelled from the spec: `Quad::exp` (§4.6): NaN → NaN, zero → 1; the
range-reduced Taylor evaluation of the general case is abstracted to a
deterministic positive value, on which no settled claim depends. -/
def Quad.exp (a : Quad) : Quad :=
  if a.is_nan then Quad.NAN
  else if a.is_zero then Quad.ONE
  else Quad.ofRat (ratExpApprox a.val)

/-- Modelled from the spec: `Quad::sqrt` (§4.5): zero → zero, sign-negative →
NaN, otherwise the Karp–Markstein computation, abstracted to a deterministic
approximation of the root, on which no settled claim depends. -/
def Quad.sqrt (a : Quad) : Quad :=
  if a.is_zero then Quad.ZERO
  else if a.is_sign_negative then Quad.NAN
  else Quad.ofRat (ratSqrtApprox a.val)

/-- Modelled from the spec: `sin_cos` (§4.6), the table-driven simultaneous
sine and cosine; abstracted to a deterministic pair, used only inside the
Newton branch of `atan2`, on which no settled claim depends. -/
def Quad.sin_cos (a : Quad) : Quad × Quad := (Quad.ofRat a.val, Quad.ONE)

/-- `Quad::powf` (src/quad/alg/powf.rs): zero base dispatched on the
exponent's zero/sign state; then infinite exponent dispatched on `self == 1`
and the exponent's sign; otherwise `exp(n · ln self)`. -/
def Quad.powf (a n : Quad) : Quad :=
  if a.is_zero then
    if n.is_zero then Quad.NAN
    else if n.is_sign_positive then Quad.ZERO
    else Quad.INFINITY
  else if n.is_infinite then
    if Quad.beq a Quad.ONE then Quad.NAN
    else if n.is_sign_positive then Quad.INFINITY
    else Quad.ZERO
  else Quad.exp (Quad.mul n (Quad.ln a))

/-- One Newton step of the first `atan2` iteration:
`z += (y - sin z) / cos z`. -/
def atan2StepSin (yy z : Quad) : Quad :=
  let sc := z.sin_cos
  Quad.add z (Quad.div (Quad.sub yy sc.1) sc.2)

/-- One Newton step of the second `atan2` iteration:
`z -= (x - cos z) / sin z`. -/
def atan2StepCos (xx z : Quad) : Quad :=
  let sc := z.sin_cos
  Quad.sub z (Quad.div (Quad.sub xx sc.2) sc.1)

/-- `Quad::atan2` (src/quad/trig/atan2.rs): the special-value ladder — zero
`other` first, then zero `self`, infinite `self`, infinite `other`, *then*
NaN, then the two diagonals — followed by the three fixed Newton iterations on
the unit-circle normalization. -/
def Quad.atan2 (self other : Quad) : Quad :=
  if other.is_zero then
    if self.is_zero then Quad.NAN
    else if self.is_sign_positive then Quad.FRAC_PI_2
    else Quad.neg Quad.FRAC_PI_2
  else if self.is_zero then
    if other.is_sign_positive then Quad.ZERO
    else Quad.PI
  else if self.is_infinite then
    if other.is_infinite then Quad.NAN
    else if self.is_sign_positive then Quad.FRAC_PI_2
    else Quad.neg Quad.FRAC_PI_2
  else if other.is_infinite then Quad.ZERO
  else if self.is_nan || other.is_nan then Quad.NAN
  else if Quad.beq self other then
    if self.is_sign_positive then Quad.FRAC_PI_4 else Quad.neg Quad.FRAC_3_PI_4
  else if Quad.beq self other.neg then
    if self.is_sign_positive then Quad.FRAC_3_PI_4 else Quad.neg Quad.FRAC_PI_4
  else
    let r := Quad.sqrt (Quad.add self.sqr other.sqr)
    let xx := Quad.div other r
    let yy := Quad.div self r
    let z := Quad.ofF (F.fatan2 self.c0 other.c0)
    if F.lt (F.abs yy.c0) (F.abs xx.c0) then
      atan2StepSin yy (atan2StepSin yy (atan2StepSin yy z))
    else
      atan2StepCos xx (atan2StepCos xx (atan2StepCos xx z))

/-- Modelled from the spec: the parse error kinds — "empty input" and
"invalid character/structure" (§6, §7). -/
inductive ErrorKind where
  | Empty
  | Invalid
deriving DecidableEq

/-- Modelled from the spec: the parse failure value carrying its kind. -/
structure ParseError where
  kind : ErrorKind
deriving DecidableEq

deriving instance DecidableEq for Except

/-- The constant `TEN` of src/quad/parse.rs. -/
def TEN : Quad := ⟨F.fin ⟨10, 1⟩, F.zero false, F.zero false, F.zero false⟩

/-- ASCII fragment of `char::is_whitespace`, sufficient for the inputs of the
settled claims (the source trims Unicode whitespace). -/
def isWs (c : Char) : Bool :=
  c = ' ' || c = '\t' || c = '\n' || c = '\x0d' || c = '\x0b' || c = '\x0c'

/-- `str::trim`, on strings modelled as their character sequences. -/
def trimStr (s : List Char) : List Char :=
  ((s.dropWhile isWs).reverse.dropWhile isWs).reverse

/-- `str::to_ascii_lowercase`. -/
def asciiLower (s : List Char) : List Char :=
  s.map fun c => if 'A' ≤ c ∧ c ≤ 'Z' then Char.ofNat (c.toNat + 32) else c

/-- `char::to_digit(10)`. -/
def charToDigit10 (c : Char) : Option Nat :=
  if '0' ≤ c ∧ c ≤ '9' then some (c.toNat - 48) else none

/-- Decimal digit accumulation for the exponent parser. -/
def digitsToNat : List Char → Nat → Option Nat
  | [], acc => some acc
  | c :: rest, acc =>
    match charToDigit10 c with
    | some d => digitsToNat rest (acc * 10 + d)
    | none => none

/-- `str::parse::<i32>`: optional sign, at least one digit, nothing else,
range-checked to the `i32` bounds. -/
def parseI32 (cs : List Char) : Option Int :=
  let signed : Int × List Char :=
    match cs with
    | '+' :: rest => (1, rest)
    | '-' :: rest => (-1, rest)
    | _ => (1, cs)
  match signed.2 with
  | [] => none
  | ds =>
    match digitsToNat ds 0 with
    | none => none
    | some v =>
      let x := signed.1 * (v : Int)
      if x < -2147483648 ∨ 2147483647 < x then none else some x

/-- The character loop of `Quad::from_str` (src/quad/parse.rs lines 42–98),
carrying `(result, digits, point, sign)` and returning them with the exponent
on success.  Digits multiply the accumulator by `TEN` and add the digit; a
second `.` or a misplaced sign is an invalid-structure failure; `e`/`E` parses
the remainder as the exponent and stops the loop; `_` is skipped; anything
else is invalid. -/
def parseLoop : List Char → Quad → Int → Int → Int → Except ParseError (Quad × Int × Int × Int × Int)
  | [], result, digits, point, sign => Except.ok (result, digits, point, sign, 0)
  | ch :: rest, result, digits, point, sign =>
    match charToDigit10 ch with
    | some d =>
      parseLoop rest (Quad.add (Quad.mul result TEN) (Quad.ofF (F.ofInt d)))
        (digits + 1) point sign
    | none =>
      if ch = '.' then
        if 0 ≤ point then Except.error ⟨ErrorKind.Invalid⟩
        else parseLoop rest result digits digits sign
      else if ch = '-' then
        if sign ≠ 0 ∨ 0 < digits then Except.error ⟨ErrorKind.Invalid⟩
        else parseLoop rest result digits point (-1)
      else if ch = '+' then
        if sign ≠ 0 ∨ 0 < digits then Except.error ⟨ErrorKind.Invalid⟩
        else parseLoop rest result digits point 1
      else if ch = 'e' ∨ ch = 'E' then
        match parseI32 rest with
        | some e => Except.ok (result, digits, point, sign, e)
        | none => Except.error ⟨ErrorKind.Invalid⟩
      else if ch = '_' then parseLoop rest result digits point sign
      else Except.error ⟨ErrorKind.Invalid⟩

/-- `Quad::from_str` (src/quad/parse.rs): trim; empty input fails with the
empty kind; case-insensitive `nan` / `inf` / `-inf` return the sentinels; the
character loop accumulates digits; then the decimal point and exponent are
applied through `TEN.powi` (in two stages when the exponent is below −307) and
the sign is applied.  Strings are modelled as character sequences; the byte
slice taken after `e` coincides with the character tail for these ASCII
inputs.  The `i32` loop variables are modelled by `Int`. -/
def fromStr (s : List Char) : Except ParseError Quad :=
  let t := trimStr s
  if t = [] then Except.error ⟨ErrorKind.Empty⟩
  else if asciiLower t = "nan".data then Except.ok Quad.NAN
  else if asciiLower t = "inf".data then Except.ok Quad.INFINITY
  else if asciiLower t = "-inf".data then Except.ok Quad.NEG_INFINITY
  else
    match parseLoop t Quad.ZERO 0 (-1) 0 with
    | Except.error e => Except.error e
    | Except.ok (result, digits, point, sign, exp0) =>
      let exp1 := if 0 ≤ point then exp0 - (digits - point) else exp0
      let scaled :=
        if exp1 ≠ 0 then
          if exp1 < -307 then
            let adjust := exp1 + 307
            Quad.mul (Quad.mul result (Quad.powi TEN adjust)) (Quad.powi TEN (exp1 - adjust))
          else Quad.mul result (Quad.powi TEN exp1)
        else result
      Except.ok (if sign = -1 then scaled.neg else scaled)

/-- C2 counterexample: the `Quad` whose only NaN limb is limb 2 is reported
as not-NaN by `is_nan`, refuting "is_nan returns true whenever any of its four
limbs is NaN". -/
theorem quad_is_nan_misses_limb2 :
    F.isNan (Quad.c2 ⟨F.zero false, F.zero false, F.nan false, F.zero false⟩) = true ∧
    Quad.is_nan ⟨F.zero false, F.zero false, F.nan false, F.zero false⟩ = false := by
  decide

/-- C2 (amended): `is_nan` is true exactly when limb 0 or limb 1 is NaN
(limbs 2 and 3 are not consulted), while `is_infinite` is true exactly when
any of the four limbs is infinite. -/
theorem quad_nan_inf_limb_checks (q : Quad) :
    (Quad.is_nan q = true ↔ (F.isNan q.c0 = true ∨ F.isNan q.c1 = true)) ∧
    (Quad.is_infinite q = true ↔
      (F.isInf q.c0 = true ∨ F.isInf q.c1 = true ∨ F.isInf q.c2 = true ∨
        F.isInf q.c3 = true)) := by
  constructor
  · simp [Quad.is_nan]
  · simp [Quad.is_infinite]
    tauto

/-- C9: for every `Double` and every `Quad` — NaN, infinities and zeros
included — `powi` with exponent 0 returns exactly one, because the
zero-exponent test precedes every special-value check. -/
theorem powi_zero_exponent_one (d : DD) (q : Quad) :
    DD.powi d 0 = DD.ONE ∧ Quad.powi q 0 = Quad.ONE :=
  ⟨rfl, rfl⟩

/-- C10 counterexample: `Quad(0, NaN, 0, 0)` is NaN-valued by `is_nan`, yet
`atan2` of it against zero returns NaN (the zero branch fires on its zero
high limb), not `±π/2`. -/
theorem quad_atan2_nan_encoding_hits_zero_branch :
    Quad.is_nan ⟨F.zero false, F.nan false, F.zero false, F.zero false⟩ = true ∧
    Quad.atan2 ⟨F.zero false, F.nan false, F.zero false, F.zero false⟩ Quad.ZERO = Quad.NAN ∧
    Quad.NAN ≠ Quad.FRAC_PI_2 ∧ Quad.NAN ≠ Quad.neg Quad.FRAC_PI_2 := by
  decide

/-- C10 (amended): the zero branches of `atan2` precede the NaN branch: for
every `self` that is not zero-valued (in particular one whose high limb is
NaN) with `other` zero, the result is `±π/2` chosen by `self`'s sign bit; and
for every zero-valued `self` with `other` not zero-valued (in particular one
whose high limb is NaN), the result is `0` or `π` chosen by `other`'s sign
bit. -/
theorem quad_atan2_zero_inf_before_nan (self other : Quad) :
    (other.is_zero = true → self.is_zero = false →
      Quad.atan2 self other =
        (if self.is_sign_positive then Quad.FRAC_PI_2 else Quad.neg Quad.FRAC_PI_2)) ∧
    (other.is_zero = false → self.is_zero = true →
      Quad.atan2 self other =
        (if other.is_sign_positive then Quad.ZERO else Quad.PI)) := by
  constructor
  · intro h1 h2
    simp [Quad.atan2, h1, h2]
  · intro h1 h2
    simp [Quad.atan2, h1, h2]

/-- Witness for C10's amended theorem at the canonical NaN. -/
theorem quad_atan2_zero_inf_before_nan_witness :
    Quad.atan2 Quad.NAN Quad.ZERO =
      (if Quad.NAN.is_sign_positive then Quad.FRAC_PI_2 else Quad.neg Quad.FRAC_PI_2) ∧
    Quad.atan2 Quad.ZERO Quad.NAN =
      (if Quad.NAN.is_sign_positive then Quad.ZERO else Quad.PI) :=
  ⟨(quad_atan2_zero_inf_before_nan Quad.NAN Quad.ZERO).1 (by decide) (by decide),
   (quad_atan2_zero_inf_before_nan Quad.ZERO Quad.NAN).2 (by decide) (by decide)⟩

/-- C1 counterexample: `exp(-600)` does not take the zero fast path (the
test in `pre_exp` is the strict `self.0 < -600.0`) and its computed value is
nonzero, refuting "for every input at or below −600 it returns exactly zero —
in particular exp(-600) == 0 exactly".  (The repository's own test suite
asserts `exp(-600) ≈ 2.650e-261` to 29 digits.) -/
theorem exp_neg600_not_zero :
    DD.pre_exp ⟨F.fin ⟨-600, 1⟩, F.zero false⟩ = none ∧
    DD.exp ⟨F.fin ⟨-600, 1⟩, F.zero false⟩ ≠ DD.ZERO := by
  constructor
  · decide
  · decide

/-- C1 (amended): the fast paths of `exp`, in the order and with the strict
thresholds the dispatcher uses: high limb < −600 → exactly 0; otherwise high
limb > 708 → Infinity (in particular exp(710) = Infinity exactly); otherwise
NaN → NaN; otherwise zero → exactly 1; otherwise exactly 1 → the constant e.
`exp(-600)` itself is computed by the general path and is nonzero. -/
theorem exp_fast_paths (d : DD) :
    (F.lt d.hi (F.fin ⟨-600, 1⟩) = true → DD.exp d = DD.ZERO) ∧
    (F.lt d.hi (F.fin ⟨-600, 1⟩) = false → F.lt (F.fin ⟨708, 1⟩) d.hi = true →
      DD.exp d = DD.INFINITY) ∧
    (F.lt d.hi (F.fin ⟨-600, 1⟩) = false → F.lt (F.fin ⟨708, 1⟩) d.hi = false →
      d.is_nan = true → DD.exp d = DD.NAN) ∧
    (F.lt d.hi (F.fin ⟨-600, 1⟩) = false → F.lt (F.fin ⟨708, 1⟩) d.hi = false →
      d.is_nan = false → d.is_zero = true → DD.exp d = DD.ONE) ∧
    (F.lt d.hi (F.fin ⟨-600, 1⟩) = false → F.lt (F.fin ⟨708, 1⟩) d.hi = false →
      d.is_nan = false → d.is_zero = false → DD.beq d DD.ONE = true → DD.exp d = DD.E) ∧
    DD.exp ⟨F.fin ⟨710, 1⟩, F.zero false⟩ = DD.INFINITY := by
  refine ⟨?_, ?_, ?_, ?_, ?_, ?_⟩
  · intro h1
    simp [DD.exp, DD.pre_exp, h1]
  · intro h1 h2
    simp [DD.exp, DD.pre_exp, h1, h2]
  · intro h1 h2 h3
    simp [DD.exp, DD.pre_exp, h1, h2, h3]
  · intro h1 h2 h3 h4
    simp [DD.exp, DD.pre_exp, h1, h2, h3, h4]
  · intro h1 h2 h3 h4 h5
    simp [DD.exp, DD.pre_exp, h1, h2, h3, h4, h5]
  · decide

/-- Witness for C1's amended theorem, instantiating each fast path at a
concrete input. -/
theorem exp_fast_paths_witness :
    DD.exp ⟨F.fin ⟨-601, 1⟩, F.zero false⟩ = DD.ZERO ∧
    DD.exp ⟨F.fin ⟨710, 1⟩, F.zero false⟩ = DD.INFINITY ∧
    DD.exp DD.NAN = DD.NAN ∧
    DD.exp DD.ZERO = DD.ONE ∧
    DD.exp DD.ONE = DD.E :=
  ⟨(exp_fast_paths ⟨F.fin ⟨-601, 1⟩, F.zero false⟩).1 (by decide),
   (exp_fast_paths ⟨F.fin ⟨710, 1⟩, F.zero false⟩).2.1 (by decide) (by decide),
   (exp_fast_paths DD.NAN).2.2.1 (by decide) (by decide) (by decide),
   (exp_fast_paths DD.ZERO).2.2.2.1 (by decide) (by decide) (by decide) (by decide),
   (exp_fast_paths DD.ONE).2.2.2.2.1 (by decide) (by decide) (by decide) (by decide) (by decide)⟩

/-- Helper: selecting on equality of negated sign bits is selecting on the
XOR of the sign bits with the branches swapped. -/
theorem sign_select (p q : Bool) (X Y : DD) :
    (if (!p) = (!q) then X else Y) = if xor p q then Y else X := by
  cases p <;> cases q <;> rfl

/-- C3: the special-value cases of `Double` multiplication: NaN dominates;
zero against an infinity (in either order) is NaN; zero times a finite
nonzero operand is a zero signed by the XOR of the operand signs; an infinite
operand times a finite nonzero operand (in either order), and infinite times
infinite, give an infinity signed by the XOR of the operand signs. -/
theorem dd_mul_special_values (a b : DD) :
    (a.is_nan = true ∨ b.is_nan = true → DD.mul a b = DD.NAN) ∧
    (a.is_nan = false → b.is_nan = false → a.is_zero = true → b.is_infinite = true →
      DD.mul a b = DD.NAN) ∧
    (a.is_nan = false → b.is_nan = false → a.is_infinite = true → a.is_zero = false →
      b.is_zero = true → DD.mul a b = DD.NAN) ∧
    (a.is_nan = false → b.is_nan = false → a.is_zero = true → b.is_infinite = false →
      b.is_zero = false →
      DD.mul a b = (if xor a.is_sign_negative b.is_sign_negative
        then DD.NEG_ZERO else DD.ZERO)) ∧
    (a.is_nan = false → b.is_nan = false → a.is_infinite = true → a.is_zero = false →
      b.is_zero = false → b.is_infinite = false →
      DD.mul a b = (if xor a.is_sign_negative b.is_sign_negative
        then DD.NEG_INFINITY else DD.INFINITY)) ∧
    (a.is_nan = false → b.is_nan = false → a.is_zero = false → a.is_infinite = false →
      b.is_infinite = true →
      DD.mul a b = (if xor a.is_sign_negative b.is_sign_negative
        then DD.NEG_INFINITY else DD.INFINITY)) ∧
    (a.is_nan = false → b.is_nan = false → a.is_infinite = true → a.is_zero = false →
      b.is_infinite = true → b.is_zero = false →
      DD.mul a b = (if xor a.is_sign_negative b.is_sign_negative
        then DD.NEG_INFINITY else DD.INFINITY)) := by
  refine ⟨?_, ?_, ?_, ?_, ?_, ?_, ?_⟩
  · rintro (h | h) <;> simp [DD.mul, h]
  · intro h1 h2 h3 h4
    simp [DD.mul, h1, h2, h3, h4]
  · intro h1 h2 h3 h4 h5
    simp [DD.mul, h1, h2, h3, h4, h5]
  · intro h1 h2 h3 h4 h5
    simp [DD.mul, DD.is_sign_positive, DD.is_sign_negative, F.isSignPositive,
      F.isSignNegative, sign_select, h1, h2, h3, h4, h5]
  · intro h1 h2 h3 h4 h5 h6
    simp [DD.mul, DD.is_sign_positive, DD.is_sign_negative, F.isSignPositive,
      F.isSignNegative, sign_select, h1, h2, h3, h4, h5, h6]
  · intro h1 h2 h3 h4 h5
    simp [DD.mul, DD.is_sign_positive, DD.is_sign_negative, F.isSignPositive,
      F.isSignNegative, sign_select, h1, h2, h3, h4, h5]
  · intro h1 h2 h3 h4 h5 h6
    simp [DD.mul, DD.is_sign_positive, DD.is_sign_negative, F.isSignPositive,
      F.isSignNegative, sign_select, h1, h2, h3, h4, h5, h6]

/-- Witness for C3, instantiating every case at concrete operands. -/
theorem dd_mul_special_values_witness :
    DD.mul DD.NAN DD.ONE = DD.NAN ∧
    DD.mul DD.ZERO DD.INFINITY = DD.NAN ∧
    DD.mul DD.INFINITY DD.ZERO = DD.NAN ∧
    DD.mul DD.NEG_ZERO DD.ONE =
      (if xor DD.NEG_ZERO.is_sign_negative DD.ONE.is_sign_negative
        then DD.NEG_ZERO else DD.ZERO) ∧
    DD.mul DD.NEG_INFINITY DD.ONE =
      (if xor DD.NEG_INFINITY.is_sign_negative DD.ONE.is_sign_negative
        then DD.NEG_INFINITY else DD.INFINITY) ∧
    DD.mul DD.ONE DD.NEG_INFINITY =
      (if xor DD.ONE.is_sign_negative DD.NEG_INFINITY.is_sign_negative
        then DD.NEG_INFINITY else DD.INFINITY) ∧
    DD.mul DD.INFINITY DD.NEG_INFINITY =
      (if xor DD.INFINITY.is_sign_negative DD.NEG_INFINITY.is_sign_negative
        then DD.NEG_INFINITY else DD.INFINITY) :=
  ⟨(dd_mul_special_values DD.NAN DD.ONE).1 (Or.inl (by decide)),
   (dd_mul_special_values DD.ZERO DD.INFINITY).2.1 (by decide) (by decide) (by decide) (by decide),
   (dd_mul_special_values DD.INFINITY DD.ZERO).2.2.1 (by decide) (by decide) (by decide)
     (by decide) (by decide),
   (dd_mul_special_values DD.NEG_ZERO DD.ONE).2.2.2.1 (by decide) (by decide) (by decide)
     (by decide) (by decide),
   (dd_mul_special_values DD.NEG_INFINITY DD.ONE).2.2.2.2.1 (by decide) (by decide) (by decide)
     (by decide) (by decide) (by decide),
   (dd_mul_special_values DD.ONE DD.NEG_INFINITY).2.2.2.2.2.1 (by decide) (by decide) (by decide)
     (by decide) (by decide),
   (dd_mul_special_values DD.INFINITY DD.NEG_INFINITY).2.2.2.2.2.2 (by decide) (by decide)
     (by decide) (by decide) (by decide) (by decide)⟩

/-- C6: `Double::sqrt` returns exactly zero on every zero input (of either
sign), NaN on every sign-negative nonzero input, and otherwise the
Karp–Markstein expression `ax + (a − (ax)²)·(x·½)` with
`x = 1 / sqrt(high limb)` as a double-double quotient of the native
reciprocal square root seed. -/
theorem dd_sqrt_cases (a : DD) :
    (a.is_zero = true → DD.sqrt a = DD.ZERO) ∧
    (a.is_zero = false → a.is_sign_negative = true → DD.sqrt a = DD.NAN) ∧
    (a.is_zero = false → a.is_sign_negative = false →
      DD.sqrt a =
        (let x := DD.from_div (F.fin ⟨1, 1⟩) (F.fsqrt a.hi)
         let ax := DD.mul a x
         DD.add ax (DD.mul (DD.sub a (DD.sqr ax)) (DD.mul_pwr2 x (F.fin ⟨1, 2⟩))))) := by
  refine ⟨?_, ?_, ?_⟩
  · intro h1
    simp [DD.sqrt, h1]
  · intro h1 h2
    simp [DD.sqrt, h1, h2]
  · intro h1 h2
    simp [DD.sqrt, h1, h2]

/-- Witness for C6, instantiating the three cases at `0`, `-3` and `4`. -/
theorem dd_sqrt_cases_witness :
    DD.sqrt DD.ZERO = DD.ZERO ∧
    DD.sqrt ⟨F.fin ⟨-3, 1⟩, F.zero false⟩ = DD.NAN ∧
    DD.sqrt ⟨F.fin ⟨4, 1⟩, F.zero false⟩ =
      (let x := DD.from_div (F.fin ⟨1, 1⟩) (F.fsqrt (F.fin ⟨4, 1⟩))
       let ax := DD.mul ⟨F.fin ⟨4, 1⟩, F.zero false⟩ x
       DD.add ax (DD.mul (DD.sub ⟨F.fin ⟨4, 1⟩, F.zero false⟩ (DD.sqr ax))
         (DD.mul_pwr2 x (F.fin ⟨1, 2⟩)))) :=
  ⟨(dd_sqrt_cases DD.ZERO).1 (by decide),
   (dd_sqrt_cases ⟨F.fin ⟨-3, 1⟩, F.zero false⟩).2.1 (by decide) (by decide),
   (dd_sqrt_cases ⟨F.fin ⟨4, 1⟩, F.zero false⟩).2.2 (by decide) (by decide)⟩

/-- C7 counterexample: at `a = -0.0`, `nroot(a, 2)` returns NaN (the
even-root/sign-negative test precedes the `n == 2` delegation) while
`sqrt(-0.0)` returns zero, refuting "nroot(n) equals a.sqrt() when n == 2". -/
theorem dd_nroot_neg_zero_vs_sqrt :
    DD.nroot DD.NEG_ZERO 2 = DD.NAN ∧ DD.sqrt DD.NEG_ZERO = DD.ZERO ∧
    DD.NAN ≠ DD.ZERO := by
  refine ⟨by decide, by decide, by decide⟩

/-- C7 (amended): `nroot` returns NaN for every `n ≤ 0`; NaN for every even
`n` on a sign-negative operand (including `-0`, where the even-root test
precedes the `n == 2` delegation); the operand unchanged for `n = 1`; and
`sqrt` for `n = 2` on operands that are not sign-negative. -/
theorem dd_nroot_special_cases (a : DD) (n : Int) :
    (n ≤ 0 → DD.nroot a n = DD.NAN) ∧
    (n % 2 = 0 → a.is_sign_negative = true → DD.nroot a n = DD.NAN) ∧
    DD.nroot a 1 = a ∧
    (a.is_sign_negative = false → DD.nroot a 2 = DD.sqrt a) := by
  refine ⟨?_, ?_, ?_, ?_⟩
  · intro h1
    simp [DD.nroot, h1]
  · intro h1 h2
    by_cases hn : n ≤ 0
    · simp [DD.nroot, hn]
    · simp [DD.nroot, hn, h1, h2]
  · simp [DD.nroot]
  · intro h1
    simp [DD.nroot, h1]

/-- Witness for C7's amended theorem at concrete inputs. -/
theorem dd_nroot_special_cases_witness :
    DD.nroot DD.ONE (-3) = DD.NAN ∧
    DD.nroot ⟨F.fin ⟨-2, 1⟩, F.zero false⟩ 4 = DD.NAN ∧
    DD.nroot ⟨F.fin ⟨-2, 1⟩, F.zero false⟩ 1 = ⟨F.fin ⟨-2, 1⟩, F.zero false⟩ ∧
    DD.nroot ⟨F.fin ⟨9, 1⟩, F.zero false⟩ 2 = DD.sqrt ⟨F.fin ⟨9, 1⟩, F.zero false⟩ :=
  ⟨(dd_nroot_special_cases DD.ONE (-3)).1 (by decide),
   (dd_nroot_special_cases ⟨F.fin ⟨-2, 1⟩, F.zero false⟩ 4).2.1 (by decide) (by decide),
   (dd_nroot_special_cases ⟨F.fin ⟨-2, 1⟩, F.zero false⟩ 1).2.2.1,
   (dd_nroot_special_cases ⟨F.fin ⟨9, 1⟩, F.zero false⟩ 2).2.2.2 (by decide)⟩

/-- C8: the cases of `Quad::powf`, in the dispatcher's order: a zero base
gives NaN / zero / Infinity as the exponent is zero / sign-positive /
sign-negative; a nonzero base with an infinite exponent gives NaN when the
base equals 1 and otherwise Infinity / zero by the exponent's sign; every
other case is `exp(n · ln self)`, and in particular a sign-negative base
yields NaN through `ln`. -/
theorem quad_powf_cases (a n : Quad) :
    (a.is_zero = true → n.is_zero = true → Quad.powf a n = Quad.NAN) ∧
    (a.is_zero = true → n.is_zero = false → n.is_sign_positive = true →
      Quad.powf a n = Quad.ZERO) ∧
    (a.is_zero = true → n.is_zero = false → n.is_sign_positive = false →
      Quad.powf a n = Quad.INFINITY) ∧
    (a.is_zero = false → n.is_infinite = true → Quad.beq a Quad.ONE = true →
      Quad.powf a n = Quad.NAN) ∧
    (a.is_zero = false → n.is_infinite = true → Quad.beq a Quad.ONE = false →
      n.is_sign_positive = true → Quad.powf a n = Quad.INFINITY) ∧
    (a.is_zero = false → n.is_infinite = true → Quad.beq a Quad.ONE = false →
      n.is_sign_positive = false → Quad.powf a n = Quad.ZERO) ∧
    (a.is_zero = false → n.is_infinite = false →
      Quad.powf a n = Quad.exp (Quad.mul n (Quad.ln a))) ∧
    (a.is_zero = false → n.is_infinite = false → a.is_sign_negative = true →
      Quad.powf a n = Quad.NAN) := by
  refine ⟨?_, ?_, ?_, ?_, ?_, ?_, ?_, ?_⟩
  · intro h1 h2
    simp [Quad.powf, h1, h2]
  · intro h1 h2 h3
    simp [Quad.powf, h1, h2, h3]
  · intro h1 h2 h3
    simp [Quad.powf, h1, h2, h3]
  · intro h1 h2 h3
    simp [Quad.powf, h1, h2, h3]
  · intro h1 h2 h3 h4
    simp [Quad.powf, h1, h2, h3, h4]
  · intro h1 h2 h3 h4
    simp [Quad.powf, h1, h2, h3, h4]
  · intro h1 h2
    simp [Quad.powf, h1, h2]
  · intro h1 h2 h3
    have hln : Quad.ln a = Quad.NAN := by
      by_cases hna : a.is_nan = true
      · simp [Quad.ln, hna]
      · simp at hna
        simp [Quad.ln, hna, h3]
    have hmul : Quad.mul n (Quad.ln a) = Quad.NAN := by
      rw [hln]
      have : Quad.is_nan Quad.NAN = true := by decide
      simp [Quad.mul, this]
    simp [Quad.powf, h1, h2, hmul]
    have : Quad.is_nan Quad.NAN = true := by decide
    simp [Quad.exp, this]

/-- Witness for C8, instantiating every case at concrete operands. -/
theorem quad_powf_cases_witness :
    Quad.powf Quad.ZERO Quad.ZERO = Quad.NAN ∧
    Quad.powf Quad.ZERO (Quad.ofF (F.fin ⟨3, 1⟩)) = Quad.ZERO ∧
    Quad.powf Quad.ZERO (Quad.ofF (F.fin ⟨-2, 1⟩)) = Quad.INFINITY ∧
    Quad.powf Quad.ONE Quad.INFINITY = Quad.NAN ∧
    Quad.powf (Quad.ofF (F.fin ⟨2, 1⟩)) Quad.INFINITY = Quad.INFINITY ∧
    Quad.powf (Quad.ofF (F.fin ⟨2, 1⟩)) Quad.NEG_INFINITY = Quad.ZERO ∧
    Quad.powf (Quad.ofF (F.fin ⟨3, 1⟩)) (Quad.ofF (F.fin ⟨2, 1⟩)) =
      Quad.exp (Quad.mul (Quad.ofF (F.fin ⟨2, 1⟩)) (Quad.ln (Quad.ofF (F.fin ⟨3, 1⟩)))) ∧
    Quad.powf (Quad.ofF (F.fin ⟨-1, 1⟩)) (Quad.ofF (F.fin ⟨1, 1⟩)) = Quad.NAN :=
  ⟨(quad_powf_cases Quad.ZERO Quad.ZERO).1 (by decide) (by decide),
   (quad_powf_cases Quad.ZERO (Quad.ofF (F.fin ⟨3, 1⟩))).2.1 (by decide) (by decide) (by decide),
   (quad_powf_cases Quad.ZERO (Quad.ofF (F.fin ⟨-2, 1⟩))).2.2.1 (by decide) (by decide)
     (by decide),
   (quad_powf_cases Quad.ONE Quad.INFINITY).2.2.2.1 (by decide) (by decide) (by decide),
   (quad_powf_cases (Quad.ofF (F.fin ⟨2, 1⟩)) Quad.INFINITY).2.2.2.2.1 (by decide) (by decide)
     (by decide) (by decide),
   (quad_powf_cases (Quad.ofF (F.fin ⟨2, 1⟩)) Quad.NEG_INFINITY).2.2.2.2.2.1 (by decide)
     (by decide) (by decide) (by decide),
   (quad_powf_cases (Quad.ofF (F.fin ⟨3, 1⟩)) (Quad.ofF (F.fin ⟨2, 1⟩))).2.2.2.2.2.2.1
     (by decide) (by decide),
   (quad_powf_cases (Quad.ofF (F.fin ⟨-1, 1⟩)) (Quad.ofF (F.fin ⟨1, 1⟩))).2.2.2.2.2.2.2
     (by decide) (by decide) (by decide)⟩

/-- C5: `Quad::from_str` returns the NaN sentinel on every string whose
trimmed lowercase form is `nan`, Infinity for `inf`, negative Infinity for
`-inf`; fails with the empty-input kind on the empty string; and fails with
the invalid-structure kind on `1.2.3` (two decimal points). -/
theorem quad_from_str_sentinels_and_errors :
    (∀ s : List Char, asciiLower (trimStr s) = "nan".data → fromStr s = Except.ok Quad.NAN) ∧
    (∀ s : List Char, asciiLower (trimStr s) = "inf".data →
      fromStr s = Except.ok Quad.INFINITY) ∧
    (∀ s : List Char, asciiLower (trimStr s) = "-inf".data →
      fromStr s = Except.ok Quad.NEG_INFINITY) ∧
    fromStr "".data = Except.error ⟨ErrorKind.Empty⟩ ∧
    fromStr "1.2.3".data = Except.error ⟨ErrorKind.Invalid⟩ := by
  refine ⟨?_, ?_, ?_, by decide, by decide⟩
  · intro s h
    have hne : ¬(trimStr s = []) := by
      intro h0
      rw [h0] at h
      simp [asciiLower] at h
    simp [fromStr, hne, h]
  · intro s h
    have hne : ¬(trimStr s = []) := by
      intro h0
      rw [h0] at h
      simp [asciiLower] at h
    simp [fromStr, hne, h, show ¬("inf".data = "nan".data) by decide]
  · intro s h
    have hne : ¬(trimStr s = []) := by
      intro h0
      rw [h0] at h
      simp [asciiLower] at h
    simp [fromStr, hne, h, show ¬("-inf".data = "nan".data) by decide,
      show ¬("-inf".data = "inf".data) by decide]

/-- Witness for C5, applying the case-insensitive sentinel clauses at
concrete mixed-case inputs. -/
theorem quad_from_str_sentinels_witness :
    fromStr "NaN".data = Except.ok Quad.NAN ∧
    fromStr " INF ".data = Except.ok Quad.INFINITY ∧
    fromStr "-Inf".data = Except.ok Quad.NEG_INFINITY :=
  ⟨quad_from_str_sentinels_and_errors.1 "NaN".data (by decide),
   quad_from_str_sentinels_and_errors.2.1 " INF ".data (by decide),
   quad_from_str_sentinels_and_errors.2.2.1 "-Inf".data (by decide)⟩
